import Mathlib

/-!
Verification of the networking-dashboard synchronization core
(`src/networking-sync.js`): schema mapper (`findColumnIndex`), record
normalizer (`getOnboardingData`), deduplicator
(`deduplicateOnboardingData`) and conservative merger
(`mergeNetworkingData`).

The JavaScript source is shallowly embedded: strings are Lean `String`s
(JavaScript `toLowerCase` is ASCII lowering here, which agrees with JS on
the ASCII inputs the tool handles; `trim` removes the usual ASCII
whitespace), JavaScript `Date` values are `Option Int` (milliseconds
since the epoch, `none` standing for an Invalid Date), the per-run clock
`new Date()` and the current calendar year are explicit parameters, and
the engine-specific date parser `new Date(string)` is an explicit
function parameter `parseDate : String → Option Int`.  A missing object
property and `undefined` are represented by the empty string exactly
where the source collapses them with `|| default` or optional chaining.
-/

/-! ## JavaScript string primitives -/

/-- The whitespace characters removed by `String.prototype.trim` (ASCII part). -/
def isJsWS (c : Char) : Bool :=
  c == ' ' || c == '\t' || c == '\n' || c == '\r'

/-- `String.prototype.trim`: drop leading and trailing whitespace. -/
def jsTrim (s : String) : String :=
  ⟨((s.data.dropWhile isJsWS).reverse.dropWhile isJsWS).reverse⟩

/-- `String.prototype.toLowerCase` (ASCII lowering). -/
def jsToLower (s : String) : String :=
  ⟨s.data.map Char.toLower⟩

/-- Helper for `jsIncludes`: does `pat` occur contiguously in the list? -/
def jsIncludesAux (pat : List Char) : List Char → Bool
  | [] => List.isPrefixOf pat []
  | c :: t => List.isPrefixOf pat (c :: t) || jsIncludesAux pat t

/-- `s.includes(sub)`: substring containment. -/
def jsIncludes (s sub : String) : Bool :=
  jsIncludesAux sub.data s.data

/-- `parseInt(s)` in base 10: skip leading whitespace, optional sign,
then a maximal run of digits; `none` is `NaN` (no digits found). -/
def parseIntJS (s : String) : Option Int :=
  let l := s.data.dropWhile isJsWS
  let sign : Int := if l.head? = some '-' then -1 else 1
  let l := if l.head? = some '-' || l.head? = some '+' then l.drop 1 else l
  let ds := l.takeWhile Char.isDigit
  if ds.isEmpty then none
  else some (sign * (ds.foldl (fun a c => a * 10 + (c.toNat - '0'.toNat)) 0 : Nat))

/-- `row[idx]` for a row of cells: out-of-range or negative index
(`-1` sentinel from the schema mapper) behaves like the empty cell,
exactly as the source treats `undefined` cells. -/
def cellAt (row : List String) (idx : Int) : String :=
  if idx < 0 then "" else row.getD idx.toNat ""

/-- `idx !== -1 ? (row[idx]?.trim() || '') : ''` — the field-extraction
pattern of the normalizer.  When `idx = -1` the cell is `""` and the trim
of `""` is `""`, so the two branches collapse. -/
def fieldOf (row : List String) (idx : Int) : String :=
  jsTrim (cellAt row idx)

/-! ## Schema mapper: `findColumnIndex` -/

/-- `findColumnIndex(headers, possibleNames)`: for each candidate name in
order, return the first header position whose lower-cased text contains
the lower-cased name (empty headers never match); `-1` when no name
matches anything. -/
def findColumnIndex (headers : List String) : List String → Int
  | [] => -1
  | name :: rest =>
    match headers.findIdx? (fun h => !(h == "") && jsIncludes (jsToLower h) (jsToLower name)) with
    | some i => (i : Int)
    | none => findColumnIndex headers rest

/-- Column of the primary email (`['Email', 'email', 'Email Address']`). -/
def emailIdx (headers : List String) : Int :=
  findColumnIndex headers ["Email", "email", "Email Address"]

/-- Column of the name field. -/
def nameIdx (headers : List String) : Int :=
  findColumnIndex headers ["Name", "name", "Full Name", "Full name"]

/-- Column of the company field. -/
def companyIdx (headers : List String) : Int :=
  findColumnIndex headers ["Company", "company", "Current Company", "Employer"]

/-- Column of the position field. -/
def positionIdx (headers : List String) : Int :=
  findColumnIndex headers ["Position", "position", "Job Title", "Role", "Title"]

/-- Column of the location field. -/
def locationIdx (headers : List String) : Int :=
  findColumnIndex headers ["Location", "location", "City", "Where are you based?"]

/-- Column of the LinkedIn field. -/
def linkedinIdx (headers : List String) : Int :=
  findColumnIndex headers ["LinkedIn", "linkedin", "LinkedIn Profile", "LinkedIn URL"]

/-- Column of the GitHub field. -/
def githubIdx (headers : List String) : Int :=
  findColumnIndex headers ["GitHub", "github", "GitHub Profile", "GitHub URL"]

/-- Column of the graduation-year field. -/
def gradIdx (headers : List String) : Int :=
  findColumnIndex headers ["Graduation Year", "graduationYear", "Year", "Graduation"]

/-- Column of the membership-status field. -/
def statusIdx (headers : List String) : Int :=
  findColumnIndex headers ["Status", "status", "Current Status", "Member Status"]

/-- Column of the timestamp field. -/
def dateIdx (headers : List String) : Int :=
  findColumnIndex headers ["Timestamp", "timestamp", "Submission Date", "Date"]

/-- Column of the personal-email field. -/
def personalEmailIdx (headers : List String) : Int :=
  findColumnIndex headers ["Personal_Email"]

/-- Column of the phone field. -/
def phoneIdx (headers : List String) : Int :=
  findColumnIndex headers ["Phone_Number"]

/-- Column of the major field. -/
def majorIdx (headers : List String) : Int :=
  findColumnIndex headers ["Major"]

/-- Column of the minor field. -/
def minorIdx (headers : List String) : Int :=
  findColumnIndex headers ["Minor"]

/-- Column of the college field. -/
def collegeIdx (headers : List String) : Int :=
  findColumnIndex headers ["College"]

/-- Column of the school-year field. -/
def schoolYearIdx (headers : List String) : Int :=
  findColumnIndex headers ["School_Year"]

/-- Column of the portfolio field. -/
def portfolioIdx (headers : List String) : Int :=
  findColumnIndex headers ["Portfolio"]

/-- Column of the semester field. -/
def semesterIdx (headers : List String) : Int :=
  findColumnIndex headers ["Semester_Completed"]

/-- Column of the duration field. -/
def durationIdx (headers : List String) : Int :=
  findColumnIndex headers ["Duration"]

/-- Column of the company-rating field. -/
def companyRatingIdx (headers : List String) : Int :=
  findColumnIndex headers ["Company_Rating"]

/-- Column of the role-rating field. -/
def roleRatingIdx (headers : List String) : Int :=
  findColumnIndex headers ["Role_Rating"]

/-- Column of the job-search-method field. -/
def jobSearchIdx (headers : List String) : Int :=
  findColumnIndex headers ["Job_Search_Method_1"]

/-- Column of the industry field. -/
def industryIdx (headers : List String) : Int :=
  findColumnIndex headers ["Industry"]

/-- Column of the department field. -/
def departmentIdx (headers : List String) : Int :=
  findColumnIndex headers ["Department"]

/-- Column of the updated-graduation-year field. -/
def gradYearUpdatedIdx (headers : List String) : Int :=
  findColumnIndex headers ["Grad Year Updated"]

/-! ## Record normalizer: `getOnboardingData` -/

/-- The structured person record produced for each onboarding data row,
with the fields in the order of the source's object literal.
`submissionDate` is a JavaScript `Date`: `none` is an Invalid Date. -/
structure OnboardRecord where
  email : String
  name : String
  personalEmail : String
  phone : String
  major : String
  minor : String
  college : String
  schoolYear : String
  company : String
  position : String
  location : String
  linkedin : String
  github : String
  portfolio : String
  semester : String
  duration : String
  companyRating : String
  roleRating : String
  jobSearchMethod : String
  industry : String
  department : String
  gradYearUpdated : String
  graduationYear : String
  currentStatus : String
  submissionDate : Option Int
  rowId : Nat
  deriving DecidableEq

/-- The status derivation of the normalizer: a non-empty status cell wins
(`alumni` iff its lower-cased text contains `"alumni"`); otherwise a
non-empty graduation-year cell is parsed and compared with the current
calendar year (`parseInt` yielding `NaN` gives `current`); otherwise
`current`. -/
def statusOf (currentYear : Int) (headers row : List String) : String :=
  if statusIdx headers ≠ -1 ∧ cellAt row (statusIdx headers) ≠ "" then
    if jsIncludes (jsToLower (cellAt row (statusIdx headers))) "alumni" then "alumni" else "current"
  else if gradIdx headers ≠ -1 ∧ cellAt row (gradIdx headers) ≠ "" then
    match parseIntJS (cellAt row (gradIdx headers)) with
    | some g => if g < currentYear then "alumni" else "current"
    | none => "current"
  else "current"

/-- The submission-date derivation of the normalizer: `new Date(cell)`
when a timestamp column resolved and the cell is non-empty (which may be
an Invalid Date, `none`), and the clock `new Date()` otherwise. -/
def dateOf (parseDate : String → Option Int) (now : Int) (headers row : List String) : Option Int :=
  if dateIdx headers ≠ -1 ∧ cellAt row (dateIdx headers) ≠ "" then
    parseDate (cellAt row (dateIdx headers))
  else some now

/-- One iteration of the normalizer's row loop: `row` is `rows[i]`.
Rows whose email cell is empty (or missing, or all whitespace) produce
nothing; otherwise every canonical field is extracted trimmed, with `""`
for absent columns, and `email` is the trimmed lower-cased cell. -/
def rowToRecord (parseDate : String → Option Int) (now currentYear : Int)
    (headers row : List String) (i : Nat) : Option OnboardRecord :=
  if jsTrim (cellAt row (emailIdx headers)) = "" then none
  else some {
    email := jsToLower (jsTrim (cellAt row (emailIdx headers))),
    name := fieldOf row (nameIdx headers),
    personalEmail := fieldOf row (personalEmailIdx headers),
    phone := fieldOf row (phoneIdx headers),
    major := fieldOf row (majorIdx headers),
    minor := fieldOf row (minorIdx headers),
    college := fieldOf row (collegeIdx headers),
    schoolYear := fieldOf row (schoolYearIdx headers),
    company := fieldOf row (companyIdx headers),
    position := fieldOf row (positionIdx headers),
    location := fieldOf row (locationIdx headers),
    linkedin := fieldOf row (linkedinIdx headers),
    github := fieldOf row (githubIdx headers),
    portfolio := fieldOf row (portfolioIdx headers),
    semester := fieldOf row (semesterIdx headers),
    duration := fieldOf row (durationIdx headers),
    companyRating := fieldOf row (companyRatingIdx headers),
    roleRating := fieldOf row (roleRatingIdx headers),
    jobSearchMethod := fieldOf row (jobSearchIdx headers),
    industry := fieldOf row (industryIdx headers),
    department := fieldOf row (departmentIdx headers),
    gradYearUpdated := fieldOf row (gradYearUpdatedIdx headers),
    graduationYear := fieldOf row (gradIdx headers),
    currentStatus := statusOf currentYear headers row,
    submissionDate := dateOf parseDate now headers row,
    rowId := i + 1 }

/-- `getOnboardingData`, from the fetched rows on: the first row is the
header row; the email column must resolve or the whole batch fails; the
remaining rows are normalized by `rowToRecord` (loop index `i` starts at
`1`). -/
def getOnboardingData (parseDate : String → Option Int) (now currentYear : Int)
    (rows : List (List String)) : Except String (List OnboardRecord) :=
  match rows with
  | [] => Except.ok []
  | headers :: dataRows =>
    if emailIdx headers = -1 then
      Except.error "Email column not found in onboarding data"
    else
      Except.ok (dataRows.enum.filterMap
        (fun pr => rowToRecord parseDate now currentYear headers pr.2 (pr.1 + 1)))

/-! ## Deduplicator: `deduplicateOnboardingData`

The deduplicator and the merger operate on person records whose
`submissionDate` is a point in time (`Int`, milliseconds), matching the
PersonRecord data model: a valid `Date` compares by `getTime()`. -/

/-- A person record as consumed by the deduplicator and the merger:
all the onboarding string fields, the derived status, a valid submission
time and the traceability row number. -/
structure Person where
  email : String
  name : String
  personalEmail : String
  phone : String
  major : String
  minor : String
  college : String
  schoolYear : String
  company : String
  position : String
  location : String
  linkedin : String
  github : String
  portfolio : String
  semester : String
  duration : String
  companyRating : String
  roleRating : String
  jobSearchMethod : String
  industry : String
  department : String
  gradYearUpdated : String
  graduationYear : String
  currentStatus : String
  submissionDate : Int
  rowId : Int
  deriving DecidableEq

/-- The sort order used by the deduplicator's comparator
`(a, b) => b.submissionDate.getTime() - a.submissionDate.getTime()`:
`a` may come before `b` when `b`'s time is not larger. -/
def moreRecent (a b : Person) : Prop :=
  b.submissionDate ≤ a.submissionDate

instance : DecidableRel moreRecent :=
  fun a b => inferInstanceAs (Decidable (b.submissionDate ≤ a.submissionDate))

instance : IsTotal Person moreRecent :=
  ⟨fun a b => Int.le_total b.submissionDate a.submissionDate⟩

instance : IsTrans Person moreRecent :=
  ⟨fun _ _ _ hab hbc => le_trans hbc hab⟩

/-- The `Map`-building loop of the deduplicator: walk the (sorted) list
and keep each record whose email was not seen before.  A JavaScript
`Map` keyed by email, filled with `set`-if-absent and read back with
`Array.from(map.values())`, yields exactly the first record per email in
encounter order. -/
def keepFirstAux (seen : List String) : List Person → List Person
  | [] => []
  | p :: rest =>
    if p.email ∈ seen then keepFirstAux seen rest
    else p :: keepFirstAux (p.email :: seen) rest

/-- `deduplicateOnboardingData(data)`: sort a copy of the data most
recent first, then keep the first (hence most recent) record per email. -/
def deduplicateOnboardingData (data : List Person) : List Person :=
  keepFirstAux [] (List.insertionSort moreRecent data)

/-! ## Conservative merger: `mergeNetworkingData` -/

/-- A row of the current networking dashboard as produced by
`getCurrentNetworkingData`: a string-keyed object (camelized header →
cell value) plus the numeric `id` the fetcher attaches.  Keys absent
from `fields` are `undefined` properties. -/
structure CurrentPerson where
  fields : List (String × String)
  id : Int
  deriving DecidableEq

/-- Property access `c[key]` on a dashboard object: `none` is
`undefined`. -/
def jsField (c : CurrentPerson) (k : String) : Option String :=
  (c.fields.find? (fun kv => kv.1 == k)).map (fun kv => kv.2)

/-- `x || d` on an optional string: `undefined` and `""` are falsy. -/
def jsOr (o : Option String) (d : String) : String :=
  match o with
  | some s => if s = "" then d else s
  | none => d

/-- The emails `Set` of the merger:
`currentData.map(p => p.email?.toLowerCase()).filter(Boolean)` —
lower-cased emails of the existing rows, with `undefined` and empty
values dropped. -/
def currentEmails (currentData : List CurrentPerson) : List String :=
  currentData.filterMap (fun c =>
    match (jsField c "email").map jsToLower with
    | some e => if e = "" then none else some e
    | none => none)

/-- The record the merger rebuilds for each existing dashboard row:
the eleven listed fields with `|| ''` defaults (`currentStatus`
defaulting to `"current"`), `submissionDate` set to the run's clock, and
every other person field left `undefined` (empty here). -/
def keptOf (now : Int) (c : CurrentPerson) : Person := {
  email := jsOr ((jsField c "email").map jsToLower) "",
  name := jsOr (jsField c "name") "",
  personalEmail := "",
  phone := "",
  major := "",
  minor := "",
  college := "",
  schoolYear := "",
  company := jsOr (jsField c "company") "",
  position := jsOr (jsField c "position") "",
  location := jsOr (jsField c "location") "",
  linkedin := jsOr (jsField c "linkedin") "",
  github := jsOr (jsField c "github") "",
  portfolio := "",
  semester := "",
  duration := "",
  companyRating := "",
  roleRating := "",
  jobSearchMethod := "",
  industry := "",
  department := "",
  gradYearUpdated := "",
  graduationYear := jsOr (jsField c "graduationYear") "",
  currentStatus := jsOr (jsField c "currentStatus") "current",
  submissionDate := now,
  rowId := c.id }

/-- `mergeNetworkingData(onboardingData, currentData)`: the rebuilt
existing people followed by the onboarding people whose email is not in
the existing-email set.  `now` is the run's `new Date()`. -/
def mergeNetworkingData (onboardingData : List Person)
    (currentData : List CurrentPerson) (now : Int) : List Person :=
  let currentEmailSet := currentEmails currentData
  let newPeople := onboardingData.filter (fun p => !(currentEmailSet.contains p.email))
  let existingPeople := currentData.map (keptOf now)
  existingPeople ++ newPeople

/-- Feeding a merged person record back to the merger as an existing
row: the record is the object itself, so every property the merger reads
is present under its own name; a `Person` has no `id` property, and
`person.id || 0` reads `0`. -/
def toCurrentData (p : Person) : CurrentPerson := {
  fields := [("email", p.email), ("name", p.name), ("company", p.company),
    ("position", p.position), ("location", p.location), ("linkedin", p.linkedin),
    ("github", p.github), ("graduationYear", p.graduationYear),
    ("currentStatus", p.currentStatus)],
  id := 0 }

/-! ## Helper lemmas: the keep-first loop -/

/-- Records surviving the keep-first loop were not previously seen. -/
theorem email_not_seen_of_mem_keepFirstAux {o : Person} :
    ∀ {seen : List String} {l : List Person},
    o ∈ keepFirstAux seen l → o.email ∉ seen := by
  intro seen l
  induction l generalizing seen with
  | nil => intro h; simp [keepFirstAux] at h
  | cons p rest ih =>
    intro h
    by_cases hp : p.email ∈ seen
    · rw [keepFirstAux, if_pos hp] at h
      exact ih h
    · rw [keepFirstAux, if_neg hp] at h
      rcases List.mem_cons.mp h with rfl | h
      · exact hp
      · intro hmem
        exact ih h (List.mem_cons_of_mem _ hmem)

/-- The keep-first loop emits pairwise distinct emails. -/
theorem pairwise_ne_keepFirstAux :
    ∀ (seen : List String) (l : List Person),
    (keepFirstAux seen l).Pairwise (fun a b => a.email ≠ b.email) := by
  intro seen l
  induction l generalizing seen with
  | nil => simp [keepFirstAux]
  | cons p rest ih =>
    by_cases hp : p.email ∈ seen
    · rw [keepFirstAux, if_pos hp]; exact ih seen
    · rw [keepFirstAux, if_neg hp]
      refine List.Pairwise.cons (fun b hb => ?_) (ih _)
      have := email_not_seen_of_mem_keepFirstAux hb
      intro he
      exact this (he ▸ List.mem_cons_self _ _)

/-- The keep-first loop returns a sublist of its input. -/
theorem keepFirstAux_sublist :
    ∀ (seen : List String) (l : List Person), List.Sublist (keepFirstAux seen l) l := by
  intro seen l
  induction l generalizing seen with
  | nil => simp [keepFirstAux]
  | cons p rest ih =>
    by_cases hp : p.email ∈ seen
    · rw [keepFirstAux, if_pos hp]
      exact (ih seen).trans (List.sublist_cons_self p rest)
    · rw [keepFirstAux, if_neg hp]
      exact List.Sublist.cons₂ p (ih _)

/-- On a list sorted most recent first, the survivor of each email is at
least as recent as every input record with that email. -/
theorem submission_le_of_keepFirstAux {l : List Person}
    (hsorted : l.Pairwise moreRecent) :
    ∀ {seen : List String} {o x : Person},
    o ∈ keepFirstAux seen l → x ∈ l → x.email = o.email →
    x.submissionDate ≤ o.submissionDate := by
  induction l with
  | nil => intro seen o x _ hx; simp at hx
  | cons p rest ih =>
    intro seen o x ho hx he
    have hrest : rest.Pairwise moreRecent := hsorted.of_cons
    have hhead : ∀ y ∈ rest, moreRecent p y :=
      fun y hy => List.rel_of_pairwise_cons hsorted hy
    by_cases hp : p.email ∈ seen
    · rw [keepFirstAux, if_pos hp] at ho
      rcases List.mem_cons.mp hx with heq | hx
      · exfalso
        apply email_not_seen_of_mem_keepFirstAux ho
        rw [← he, heq]
        exact hp
      · exact ih hrest ho hx he
    · rw [keepFirstAux, if_neg hp] at ho
      rcases List.mem_cons.mp ho with heq | ho
      · rcases List.mem_cons.mp hx with heq' | hx
        · rw [heq', heq]
        · rw [heq]; exact hhead x hx
      · rcases List.mem_cons.mp hx with heq' | hx
        · exfalso
          apply email_not_seen_of_mem_keepFirstAux ho
          rw [← he, heq']
          exact List.mem_cons_self _ _
        · exact ih hrest ho hx he

/-- Every email reaching the keep-first loop unseen is represented in
its output. -/
theorem exists_mem_keepFirstAux {x : Person} :
    ∀ {seen : List String} {l : List Person},
    x ∈ l → x.email ∉ seen →
    ∃ o, o ∈ keepFirstAux seen l ∧ o.email = x.email := by
  intro seen l
  induction l generalizing seen with
  | nil => intro hx; simp at hx
  | cons p rest ih =>
    intro hx hseen
    by_cases hp : p.email ∈ seen
    · rw [keepFirstAux, if_pos hp]
      rcases List.mem_cons.mp hx with rfl | hx
      · exact absurd hp hseen
      · exact ih hx hseen
    · rw [keepFirstAux, if_neg hp]
      rcases List.mem_cons.mp hx with rfl | hx
      · exact ⟨x, List.mem_cons_self _ _, rfl⟩
      · by_cases hxe : x.email = p.email
        · exact ⟨p, List.mem_cons_self _ _, hxe.symm⟩
        · obtain ⟨o, ho, he⟩ := ih hx (by
            intro hmem
            rcases List.mem_cons.mp hmem with h | h
            · exact hxe h
            · exact hseen h)
          exact ⟨o, List.mem_cons_of_mem _ ho, he⟩

/-! ## Helper lemmas: the merger -/

/-- Property access on a fed-back merged record finds its email. -/
theorem jsField_toCurrentData_email (p : Person) :
    jsField (toCurrentData p) "email" = some p.email := rfl

/-- A person present in a fed-back dataset contributes its lower-cased
email to the merger's email set, provided it is non-empty. -/
theorem mem_currentEmails_toCurrentData {q : Person} {l : List Person}
    (hq : q ∈ l) (hne : jsToLower q.email ≠ "") :
    jsToLower q.email ∈ currentEmails (l.map toCurrentData) := by
  unfold currentEmails
  rw [List.filterMap_map]
  apply List.mem_filterMap.mpr
  refine ⟨q, hq, ?_⟩
  show (match (jsField (toCurrentData q) "email").map jsToLower with
    | some e => if e = "" then none else some e
    | none => none) = some (jsToLower q.email)
  rw [jsField_toCurrentData_email, Option.map_some']
  simp only []
  rw [if_neg hne]

/-- The dropped part of the merger's output is the filter of the new
records against the existing-email set. -/
theorem merge_drop_eq_filter (onboardingData : List Person)
    (currentData : List CurrentPerson) (now : Int) :
    (mergeNetworkingData onboardingData currentData now).drop currentData.length =
      onboardingData.filter (fun p => !((currentEmails currentData).contains p.email)) := by
  show ((currentData.map (keptOf now)) ++ _).drop currentData.length = _
  rw [← List.length_map currentData (keptOf now), List.drop_left]

/-! ## Sample data for witnesses and counterexamples -/

/-- A blank person record. -/
def blankPerson : Person := {
  email := "", name := "", personalEmail := "", phone := "", major := "",
  minor := "", college := "", schoolYear := "", company := "", position := "",
  location := "", linkedin := "", github := "", portfolio := "", semester := "",
  duration := "", companyRating := "", roleRating := "", jobSearchMethod := "",
  industry := "", department := "", gradYearUpdated := "", graduationYear := "",
  currentStatus := "current", submissionDate := 0, rowId := 0 }

/-- Sample: a submission from 5. -/
def personLate : Person := { blankPerson with email := "a@x.com", submissionDate := 5 }

/-- Sample: an earlier submission from 3 with the same email. -/
def personEarly : Person := { blankPerson with email := "a@x.com", submissionDate := 3 }

/-- Sample: a new person not on the dashboard. -/
def personAlice : Person := { blankPerson with email := "alice@x.com", submissionDate := 1 }

/-- Sample: an existing dashboard row. -/
def currentBob : CurrentPerson :=
  ⟨[("email", "bob@x.com"), ("name", "Bob")], 2⟩

/-- Sample: an existing dashboard row with mixed-case email, a personal
email and no status. -/
def currentMixed : CurrentPerson :=
  ⟨[("email", "Bob@X.com"), ("name", "Bob"), ("personalEmail", "p@y.com")], 7⟩

/-! ## Claim theorems -/

/-- C2: Identity uniqueness — for every input sequence of person
records, the deduplicator's output contains no two records with equal
normalized email. -/
theorem dedup_emails_pairwise_distinct (data : List Person) :
    (deduplicateOnboardingData data).Pairwise (fun a b => a.email ≠ b.email) :=
  pairwise_ne_keepFirstAux [] _

/-- C3: Most-recent-wins — every record the deduplicator outputs has a
submission date at least that of every input record with the same email
(ties broken arbitrarily), and every input email is represented in the
output. -/
theorem dedup_most_recent_wins (data : List Person) :
    (∀ o ∈ deduplicateOnboardingData data, ∀ x ∈ data,
        x.email = o.email → x.submissionDate ≤ o.submissionDate) ∧
    (∀ x ∈ data, ∃ o ∈ deduplicateOnboardingData data, o.email = x.email) := by
  constructor
  · intro o ho x hx he
    have hsorted : (List.insertionSort moreRecent data).Pairwise moreRecent :=
      List.sorted_insertionSort moreRecent data
    have hx' : x ∈ List.insertionSort moreRecent data :=
      ((List.perm_insertionSort moreRecent data).mem_iff).mpr hx
    exact submission_le_of_keepFirstAux hsorted ho hx' he
  · intro x hx
    have hx' : x ∈ List.insertionSort moreRecent data :=
      ((List.perm_insertionSort moreRecent data).mem_iff).mpr hx
    obtain ⟨o, ho, he⟩ := exists_mem_keepFirstAux hx' (List.not_mem_nil _)
    exact ⟨o, ho, he⟩

/-- C3 witness: on the concrete two-submission input, the survivor for
`a@x.com` is at least as recent as the earlier submission. -/
theorem dedup_most_recent_wins_witness :
    personEarly.submissionDate ≤ personLate.submissionDate :=
  (dedup_most_recent_wins [personEarly, personLate]).1
    personLate (by decide) personEarly (by decide) (by decide)

/-- C10: The deduplicator's output is ordered by submission date in
non-increasing order (most recent first). -/
theorem dedup_output_sorted_desc (data : List Person) :
    (deduplicateOnboardingData data).Pairwise
      (fun a b => b.submissionDate ≤ a.submissionDate) :=
  List.Pairwise.sublist (keepFirstAux_sublist [] _)
    (List.sorted_insertionSort moreRecent data)

/-- String-list `contains` agrees with membership. -/
theorem string_contains_iff_mem (l : List String) (a : String) :
    l.contains a = true ↔ a ∈ l :=
  List.elem_iff

/-- C1: the merger does not copy existing records verbatim — on a
concrete existing row the kept record's email is rewritten to lower
case, its submission date is replaced by the run's clock (42), and its
personal-email field is dropped, contradicting field-for-field equality
(and the source's own comment that existing people are kept unchanged). -/
theorem merge_rewrites_kept_records :
    ((mergeNetworkingData [] [currentMixed] 42).map
        (fun p => (p.email, p.submissionDate, p.personalEmail)) =
      [("bob@x.com", (42 : Int), "")]) ∧
    jsField currentMixed "email" = some "Bob@X.com" ∧
    (("Bob@X.com" == "bob@x.com") = false) := by decide

/-- C4: No-collision-append — the part of the merger's output after the
kept records is exactly the subsequence of the new records whose email
is not in the existing-email set, in input order, and no such record's
email lies in that set. -/
theorem merge_added_eq_filter_not_existing (onboardingData : List Person)
    (currentData : List CurrentPerson) (now : Int) :
    ((mergeNetworkingData onboardingData currentData now).drop currentData.length =
      onboardingData.filter (fun p => !((currentEmails currentData).contains p.email))) ∧
    (∀ p ∈ (mergeNetworkingData onboardingData currentData now).drop currentData.length,
      p.email ∉ currentEmails currentData) := by
  refine ⟨merge_drop_eq_filter .., ?_⟩
  intro p hp
  rw [merge_drop_eq_filter] at hp
  have hpred := (List.mem_filter.mp hp).2
  intro hmem
  rw [(string_contains_iff_mem _ _).mpr hmem] at hpred
  simp at hpred

/-- C4 witness: with Alice new and Bob existing, the appended part is
exactly Alice, whose email is not among the existing emails. -/
theorem merge_added_eq_filter_not_existing_witness :
    ((mergeNetworkingData [personAlice] [currentBob] 0).drop 1 = [personAlice]) ∧
    ((currentEmails [currentBob]).contains personAlice.email = false) := by
  constructor
  · exact ((merge_added_eq_filter_not_existing [personAlice] [currentBob] 0).1).trans
      (by decide)
  · have h2 := (merge_added_eq_filter_not_existing [personAlice] [currentBob] 0).2
      personAlice (by decide)
    cases hcb : (currentEmails [currentBob]).contains personAlice.email
    · rfl
    · exact absurd ((string_contains_iff_mem _ _).mp hcb) h2

/-- A record dropped by the first merge run has its email represented by
the kept copy of the colliding existing row. -/
theorem exists_kept_with_email {p : Person} {currentData : List CurrentPerson}
    (now : Int) (hmem : p.email ∈ currentEmails currentData) :
    ∃ c ∈ currentData, (keptOf now c).email = p.email := by
  obtain ⟨c, hc, heq⟩ := List.mem_filterMap.mp hmem
  refine ⟨c, hc, ?_⟩
  cases hjf : jsField c "email" with
  | none => rw [hjf] at heq; simp at heq
  | some s =>
    rw [hjf, Option.map_some'] at heq
    simp only [] at heq
    by_cases hse : jsToLower s = ""
    · rw [if_pos hse] at heq; simp at heq
    · rw [if_neg hse] at heq
      have heq' : jsToLower s = p.email := Option.some.inj heq
      show jsOr ((jsField c "email").map jsToLower) "" = p.email
      rw [hjf, Option.map_some']
      show (if jsToLower s = "" then "" else jsToLower s) = p.email
      rw [if_neg hse, heq']

/-- C5: Merge idempotence — feeding the merged output back as the
existing set, a second merge with the same new records appends nothing.
The hypothesis is the PersonRecord invariant: every new record carries a
non-empty, already lower-cased email. -/
theorem merge_idempotent_added_empty (newRecords : List Person)
    (currentData : List CurrentPerson) (now1 now2 : Int)
    (hinv : ∀ p ∈ newRecords, p.email ≠ "" ∧ jsToLower p.email = p.email) :
    (mergeNetworkingData newRecords
        ((mergeNetworkingData newRecords currentData now1).map toCurrentData) now2).drop
      (mergeNetworkingData newRecords currentData now1).length = [] := by
  have hdrop := merge_drop_eq_filter newRecords
    ((mergeNetworkingData newRecords currentData now1).map toCurrentData) now2
  rw [List.length_map] at hdrop
  rw [hdrop, List.filter_eq_nil_iff]
  intro p hp hcontra
  obtain ⟨hne, hlow⟩ := hinv p hp
  rw [Bool.not_eq_true'] at hcontra
  have hq : ∃ q ∈ mergeNetworkingData newRecords currentData now1, q.email = p.email := by
    by_cases hdropped : (currentEmails currentData).contains p.email = true
    · obtain ⟨c, hc, hkept⟩ :=
        exists_kept_with_email now1 ((string_contains_iff_mem _ _).mp hdropped)
      exact ⟨keptOf now1 c,
        List.mem_append_left _ (List.mem_map_of_mem (keptOf now1) hc), hkept⟩
    · refine ⟨p, List.mem_append_right _ ?_, rfl⟩
      refine List.mem_filter.mpr ⟨hp, ?_⟩
      rw [Bool.not_eq_true', Bool.eq_false_iff]
      exact hdropped
  obtain ⟨q, hqmem, hqe⟩ := hq
  have hkey : jsToLower q.email ∈
      currentEmails ((mergeNetworkingData newRecords currentData now1).map toCurrentData) :=
    mem_currentEmails_toCurrentData hqmem (by rw [hqe, hlow]; exact hne)
  rw [hqe, hlow] at hkey
  rw [(string_contains_iff_mem _ _).mpr hkey] at hcontra
  simp at hcontra

/-- C5 witness: with Alice as the only (valid) new record and an empty
dashboard, the second merge run appends nothing. -/
theorem merge_idempotent_added_empty_witness :
    (mergeNetworkingData [personAlice]
        ((mergeNetworkingData [personAlice] [] 3).map toCurrentData) 4).drop
      (mergeNetworkingData [personAlice] [] 3).length = [] :=
  merge_idempotent_added_empty [personAlice] [] 3 4 (by decide)

/-- C9: Missing-email exclusion and normalization — a raw row produces a
record iff its resolved email cell is non-empty after trimming, and the
produced record's email is the trimmed lower-cased cell. -/
theorem email_exclusion_normalization (parseDate : String → Option Int)
    (now currentYear : Int) (headers row : List String) (i : Nat) :
    ((∃ rec, rowToRecord parseDate now currentYear headers row i = some rec) ↔
      jsTrim (cellAt row (emailIdx headers)) ≠ "") ∧
    (∀ rec, rowToRecord parseDate now currentYear headers row i = some rec →
      rec.email = jsToLower (jsTrim (cellAt row (emailIdx headers)))) := by
  by_cases h : jsTrim (cellAt row (emailIdx headers)) = ""
  · constructor
    · constructor
      · rintro ⟨rec, hrec⟩
        rw [rowToRecord, if_pos h] at hrec
        exact absurd hrec (by simp)
      · intro hne
        exact absurd h hne
    · intro rec hrec
      rw [rowToRecord, if_pos h] at hrec
      exact absurd hrec (by simp)
  · constructor
    · constructor
      · intro _
        exact h
      · intro _
        apply Option.ne_none_iff_exists'.mp
        rw [rowToRecord, if_neg h]
        simp
    · intro rec hrec
      rw [rowToRecord, if_neg h] at hrec
      rw [← Option.some.inj hrec]

/-- C9 witness: a concrete row with a plain email produces a record. -/
theorem email_exclusion_normalization_witness :
    ∃ rec, rowToRecord (fun _ => none) 0 2026 ["Email"] ["a@x.com"] 1 = some rec :=
  (email_exclusion_normalization (fun _ => none) 0 2026 ["Email"] ["a@x.com"] 1).1.mpr
    (by decide)

/-- C6 (amended): where a status column resolved and its cell is
non-empty, the produced record's status is alumni precisely when the
cell's lower-cased text contains the word alumni, whatever the
graduation-year column holds. -/
theorem status_rule_amended (parseDate : String → Option Int)
    (now currentYear : Int) (headers row : List String) (i : Nat) (rec : OnboardRecord)
    (hs : statusIdx headers ≠ -1) (hc : cellAt row (statusIdx headers) ≠ "")
    (hrec : rowToRecord parseDate now currentYear headers row i = some rec) :
    rec.currentStatus =
      if jsIncludes (jsToLower (cellAt row (statusIdx headers))) "alumni"
      then "alumni" else "current" := by
  by_cases h : jsTrim (cellAt row (emailIdx headers)) = ""
  · rw [rowToRecord, if_pos h] at hrec
    exact absurd hrec (by simp)
  · rw [rowToRecord, if_neg h] at hrec
    rw [← Option.some.inj hrec]
    show statusOf currentYear headers row = _
    rw [statusOf, if_pos ⟨hs, hc⟩]

/-- C6 witness: a row whose status cell says Alumni is classified
alumni. -/
theorem status_rule_amended_witness :
    (rowToRecord (fun _ => none) 0 2026 ["Status", "Email"]
        ["Alumni - class of 2020", "a@x.com"] 1).map (fun r => r.currentStatus) =
      some "alumni" := by
  cases hrec : rowToRecord (fun _ => none) 0 2026 ["Status", "Email"]
      ["Alumni - class of 2020", "a@x.com"] 1 with
  | none => exact absurd hrec (by decide)
  | some rec =>
    have h := status_rule_amended (fun _ => none) 0 2026 ["Status", "Email"]
      ["Alumni - class of 2020", "a@x.com"] 1 rec (by decide) (by decide) hrec
    rw [Option.map_some', h, if_pos (by decide)]

/-- C6 counterexample: with headers Status, Graduation Year, Email and a
row whose status cell is empty but whose graduation year is 1900, the
status column resolves (position 0) yet the code classifies the row
alumni through the graduation-year rule, while the claim's formula for
the status cell yields current. -/
theorem status_rule_counterexample :
    (statusIdx ["Status", "Graduation Year", "Email"] = 0) ∧
    ((rowToRecord (fun _ => none) 0 2026 ["Status", "Graduation Year", "Email"]
        ["", "1900", "a@x.com"] 1).map (fun r => r.currentStatus) = some "alumni") ∧
    ((if jsIncludes (jsToLower (jsTrim (cellAt ["", "1900", "a@x.com"]
          (statusIdx ["Status", "Graduation Year", "Email"])))) "alumni"
      then "alumni" else "current") = "current") ∧
    (("alumni" == "current") = false) := by decide

/-- C7 (amended): the produced record's submission date is the parsed
cell — possibly an Invalid Date — whenever a timestamp column resolved
and the cell is non-empty, and the run's clock otherwise. -/
theorem submission_date_amended (parseDate : String → Option Int)
    (now currentYear : Int) (headers row : List String) (i : Nat) (rec : OnboardRecord)
    (hrec : rowToRecord parseDate now currentYear headers row i = some rec) :
    rec.submissionDate =
      if dateIdx headers ≠ -1 ∧ cellAt row (dateIdx headers) ≠ ""
      then parseDate (cellAt row (dateIdx headers))
      else some now := by
  by_cases h : jsTrim (cellAt row (emailIdx headers)) = ""
  · rw [rowToRecord, if_pos h] at hrec
    exact absurd hrec (by simp)
  · rw [rowToRecord, if_neg h] at hrec
    rw [← Option.some.inj hrec]
    show dateOf parseDate now headers row = _
    rw [dateOf]

/-- C7 witness: a parseable timestamp cell becomes the submission
date. -/
theorem submission_date_amended_witness :
    (rowToRecord (fun s => if s = "2024-06-01" then some 1717200000000 else none) 5 2026
        ["Timestamp", "Email"] ["2024-06-01", "a@x.com"] 1).map
      (fun r => r.submissionDate) = some (some 1717200000000) := by
  cases hrec : rowToRecord (fun s => if s = "2024-06-01" then some 1717200000000 else none)
      5 2026 ["Timestamp", "Email"] ["2024-06-01", "a@x.com"] 1 with
  | none => exact absurd hrec (by decide)
  | some rec =>
    have h := submission_date_amended
      (fun s => if s = "2024-06-01" then some 1717200000000 else none) 5 2026
      ["Timestamp", "Email"] ["2024-06-01", "a@x.com"] 1 rec hrec
    rw [Option.map_some', h, if_pos ⟨by decide, by decide⟩]
    decide

/-- C7 counterexample: with a resolved timestamp column whose cell is
non-empty but not a valid date (new Date gives an Invalid Date, `none`),
the code stores the Invalid Date rather than falling back to the clock
(99) as the claim requires. -/
theorem submission_date_counterexample :
    (dateIdx ["Timestamp", "Email"] = 0) ∧
    (cellAt ["xyz", "a@x.com"] (dateIdx ["Timestamp", "Email"]) = "xyz") ∧
    ((rowToRecord (fun _ => none) 99 2026 ["Timestamp", "Email"] ["xyz", "a@x.com"] 1).map
        (fun r => r.submissionDate) = some none) ∧
    (((none : Option Int) == some 99) = false) := by decide

/-- C8 (amended): on the underscore header list actually used by the
alias table, the mapper resolves the company rating to position 0 and
the role rating to position 1 with no cross-matching. -/
theorem rating_alias_amended :
    companyRatingIdx ["Company_Rating", "Role_Rating"] = 0 ∧
    roleRatingIdx ["Company_Rating", "Role_Rating"] = 1 := by decide

/-- C8 counterexample: on the space-separated header list of the claim,
both rating fields resolve to absent (-1), not to positions 0 and 1 —
the only alias is underscore-separated and substring matching finds no
underscore in the headers. -/
theorem rating_alias_counterexample :
    (companyRatingIdx ["Company Rating", "Role Rating"] = -1) ∧
    (roleRatingIdx ["Company Rating", "Role Rating"] = -1) ∧
    (((-1 : Int) == 0) = false) := by decide
